import Mathlib

/-!
Verification of the NBA over-predictor prediction engine (`model.py`)
against its natural-language specification.

The prediction engine is shallowly embedded below.  Real / float
arithmetic of the source is modelled with exact rationals (ℚ); pandas
NaN cells are modelled with `Option ℚ` (`none` = NaN), and Python
comparisons with NaN (always `False`) are modelled explicitly.  The
sklearn/xgboost library calls (feature-availability statistics over the
unmodelled stat columns, ensemble fitting, calibration and scoring) are
opaque external library code and are abstracted as the parameter
structure `SkModel`; everything written in `model.py` itself around
those calls — tier selection, quantile tests, rolling-window feature
availability, label-variance check, error fallbacks, rounding, the
threshold cache and the monotonicity enforcer — is embedded faithfully.
-/

namespace NBA

/-- One parsed game record.  `model.py` carries many more stat columns
(FGA, FTA, TRB, ...); only the columns the verified claims touch are
modelled (`Date`, `PTS`, `MP_min`), the rest are consumed exclusively by
the abstracted sklearn calls.  `none` models a NaN cell. -/
structure GameRow where
  date : Int
  pts : Option ℚ
  mp_min : Option ℚ
deriving DecidableEq

/-- The decision outcome dictionary of `final_over_probability`.
`probability = none` models a NaN probability (mean of an empty
series).  The optional metadata keys (`features_used`,
`original_probability`, `adjustment_info`) are omitted. -/
structure DecisionOutcome where
  probability : Option ℚ
  confidence : String
  method_used : String
  sample_size : Nat
  adjusted : Bool
deriving DecidableEq

/-- Per-player bucket of the monotonicity cache:
`{threshold: probability}` (line 21 of `model.py`).  Keys are kept
distinct by `bucketSet`. -/
abbrev Bucket := List (ℚ × ℚ)

/-- The global probability cache `_probability_cache`:
`{player_hash: {threshold: probability}}`.  The Python `hash` of the
recent-points tuple is modelled by the tuple itself (same sequence ⇒
same key, as the spec's fingerprint contract requires; hash collisions
are not modelled). -/
abbrev Cache := List (List (Option ℚ) × Bucket)

/-- `get_player_hash` (lines 24-27): key derived from the last 35
`PTS` values. -/
def get_player_hash (df : List GameRow) : List (Option ℚ) :=
  (df.drop (df.length - 35)).map (fun g => g.pts)

/-- `clear_cache` (lines 118-121). -/
def clear_cache (_c : Cache) : Cache := []

/-- `cache[threshold] = value` on a bucket: overwrite if present,
append otherwise. -/
def bucketSet (b : Bucket) (t v : ℚ) : Bucket :=
  if b.any (fun p => decide (p.1 = t)) then
    b.map (fun p => if p.1 = t then (t, v) else p)
  else b ++ [(t, v)]

/-- `cache[threshold]` lookup (only ever used on present keys; defaults
to 0). -/
def bucketGet (b : Bucket) (t : ℚ) : ℚ :=
  match b.find? (fun p => decide (p.1 = t)) with
  | some p => p.2
  | none => 0

def bucketKeys (b : Bucket) : List ℚ := b.map (fun p => p.1)

def maxQ : List ℚ → Option ℚ
  | [] => none
  | x :: xs =>
    match maxQ xs with
    | none => some x
    | some m => some (max x m)

def minQ : List ℚ → Option ℚ
  | [] => none
  | x :: xs =>
    match minQ xs with
    | none => some x
    | some m => some (min x m)

/-- `sorted_thresholds[current_idx - 1]` (lines 61-66): the immediately
lower recorded threshold, i.e. the greatest cached key below `t`. -/
def lowerKey (b : Bucket) (t : ℚ) : Option ℚ :=
  maxQ ((bucketKeys b).filter (fun k => decide (k < t)))

/-- `sorted_thresholds[current_idx + 1]` (lines 88-89): the immediately
higher recorded threshold, i.e. the least cached key above `t`. -/
def upperKey (b : Bucket) (t : ℚ) : Option ℚ :=
  minQ ((bucketKeys b).filter (fun k => decide (t < k)))

/-- Result dictionary of `enforce_monotonicity`. -/
structure MonoResult where
  probability : ℚ
  adjusted : Bool
  method : String
  original_prob : Option ℚ
  reference_threshold : Option ℚ
  reference_prob : Option ℚ
deriving DecidableEq

/-- Lines 87-108 of `enforce_monotonicity`: the higher-neighbour check,
reached when the lower-neighbour check does not fire. -/
def monoUpper (t raw : ℚ) (b : Bucket) : MonoResult × Bucket :=
  match upperKey b t with
  | some nt =>
    let np := bucketGet b nt
    if raw < np then
      let increment := min (1/2) ((np - raw) * (1/2))
      let adjusted_prob := min 100 (np + increment)
      (⟨adjusted_prob, true, "adjusted_up_from_higher", some raw, some nt, some np⟩,
        bucketSet b t adjusted_prob)
    else (⟨raw, false, "raw_ml", none, none, none⟩, b)
  | none => (⟨raw, false, "raw_ml", none, none, none⟩, b)

/-- `enforce_monotonicity` (lines 30-115) on one player's bucket:
record the raw probability, return it unmodified if it is the only
key, otherwise check the immediately lower threshold first (correct
downward from its stored probability) and only then the immediately
higher one (correct upward from its stored probability).  Returns the
result dictionary and the updated bucket. -/
def enforce_monotonicity_bucket (t raw : ℚ) (b0 : Bucket) : MonoResult × Bucket :=
  let b := bucketSet b0 t raw
  if (bucketKeys b).length = 1 then
    (⟨raw, false, "raw_ml", none, none, none⟩, b)
  else
    match lowerKey b t with
    | some pt =>
      let pp := bucketGet b pt
      if pp < raw then
        let decrement := min (1/2) ((raw - pp) * (1/2))
        let adjusted_prob := max 0 (pp - decrement)
        (⟨adjusted_prob, true, "adjusted_down_from_lower", some raw, some pt, some pp⟩,
          bucketSet b t adjusted_prob)
      else monoUpper t raw b
    | none => monoUpper t raw b

/-- `enforce_monotonicity` at the level of the whole cache: select the
player's bucket by fingerprint (creating it when absent, lines 42-45)
and update it. -/
def enforce_monotonicity (t raw : ℚ) (df : List GameRow) (c : Cache) : MonoResult × Cache :=
  let fp := get_player_hash df
  let b :=
    match c.find? (fun p => decide (p.1 = fp)) with
    | some p => p.2
    | none => []
  let r := enforce_monotonicity_bucket t raw b
  (r.1,
    if c.any (fun p => decide (p.1 = fp)) then
      c.map (fun p => if p.1 = fp then (fp, r.2) else p)
    else c ++ [(fp, r.2)])

def cacheGetBucket (c : Cache) (fp : List (Option ℚ)) : Bucket :=
  match c.find? (fun p => decide (p.1 = fp)) with
  | some p => p.2
  | none => []

def cacheSetBucket (c : Cache) (fp : List (Option ℚ)) (b : Bucket) : Cache :=
  if c.any (fun p => decide (p.1 = fp)) then
    c.map (fun p => if p.1 = fp then (fp, b) else p)
  else c ++ [(fp, b)]

/-!  Record normalizer (`parse_player_csv`, lines 127-168). -/

/-- Typed failures of the normalizer.  `emptyData` models pandas
raising `EmptyDataError` on input with no header row (`read_csv` of
empty text, line 129); `keyError c` models the `KeyError` raised when
column `c` is entirely absent (lines 132, 133, 150). -/
inductive ParseErr where
  | emptyData : ParseErr
  | keyError : String → ParseErr
deriving DecidableEq

/-- A raw `MP` cell: minutes given as "m:ss", as a plain number, or as
unparseable text (lines 139-148). -/
inductive MPCell where
  | colonFmt : Int → Int → MPCell
  | numFmt : ℚ → MPCell
  | junk : MPCell
deriving DecidableEq

/-- One raw input row.  Cells are `none` when NaN/empty.  Dates are
modelled as already-parsed ordinals (an unparseable non-empty date
makes `pd.to_datetime` raise in the source; that path is outside the
verified claims).  Numeric cells such as `PTS` are modelled directly as
`Option ℚ`: `pd.to_numeric(..., errors="coerce")` (lines 164-166) sends
unparseable text to NaN, i.e. to `none`. -/
structure RawRow where
  rk : Option String
  date : Option Int
  mp : Option MPCell
  pts : Option ℚ
deriving DecidableEq

/-- A raw tabular input.  `hasHeader = false` models empty input text
(no header row); the `has*` flags record which required columns the
header contains. -/
structure RawTable where
  hasHeader : Bool
  hasRk : Bool
  hasDate : Bool
  hasMP : Bool
  rows : List RawRow
deriving DecidableEq

/-- `mp_to_minutes` (lines 139-148). -/
def mp_to_minutes : Option MPCell → Option ℚ
  | none => none
  | some (MPCell.colonFmt m s) => some ((m : ℚ) + (s : ℚ) / 60)
  | some (MPCell.numFmt q) => some q
  | some MPCell.junk => none

/-- Lines 132-133: `df[df['Rk'].notna() & (df['Rk'] != '')]` then
`df[df['Date'].notna()]`. -/
def survivingRows (rows : List RawRow) : List RawRow :=
  (rows.filter (fun r => r.rk.isSome && !(decide (r.rk = some "")))).filter
    (fun r => r.date.isSome)

def insertByDate (x : RawRow) : List RawRow → List RawRow
  | [] => [x]
  | y :: ys =>
    if x.date.getD 0 < y.date.getD 0 then x :: y :: ys else y :: insertByDate x ys

/-- `df.sort_values("Date")` (line 136), as a stable ascending sort on
the date key. -/
def sortByDate (l : List RawRow) : List RawRow := l.foldr insertByDate []

/-- `parse_player_csv` (lines 127-168).  Raises (models an uncaught
Python exception as `Except.error`) when the input has no header or a
required column is entirely absent; otherwise filters invalid rows,
sorts by date and derives `MP_min`.  Note that when every row is
filtered out it returns `Except.ok []`: pandas filtering of an empty
frame raises nothing. -/
def parse_player_csv (tb : RawTable) : Except ParseErr (List GameRow) :=
  if tb.hasHeader = false then Except.error ParseErr.emptyData
  else if tb.hasRk = false then Except.error (ParseErr.keyError "Rk")
  else if tb.hasDate = false then Except.error (ParseErr.keyError "Date")
  else
    let rows := sortByDate (survivingRows tb.rows)
    if tb.hasMP = false then Except.error (ParseErr.keyError "MP")
    else Except.ok (rows.map
      (fun r => ⟨r.date.getD 0, r.pts, mp_to_minutes r.mp⟩))

/-!  Empirical estimators and feature helpers. -/

/-- `PTS > point_line` on one cell: Python comparison with NaN is
`False`. -/
def overInd (t : ℚ) : Option ℚ → Bool
  | none => false
  | some x => decide (t < x)

def countOver (l : List (Option ℚ)) (t : ℚ) : Nat :=
  (l.filter (overInd t)).length

/-- `df["PTS"].gt(point_line).mean() * 100` (lines 342, 356, 366):
NaN points count as `False` yet stay in the denominator; the mean of an
empty series is NaN (`none`). -/
def empiricalOverRate (l : List (Option ℚ)) (t : ℚ) : Option ℚ :=
  if l.length = 0 then none
  else some (100 * (countOver l t : ℚ) / (l.length : ℚ))

/-- `np.linspace a b n`. -/
def linspace (a b : ℚ) (n : Nat) : List ℚ :=
  match n with
  | 0 => []
  | 1 => [a]
  | _ => (List.range n).map (fun i : Nat => a + (b - a) * (i : ℚ) / ((n : ℚ) - 1))

/-- Numerator of `np.average(values, weights)`: sum of `w*v` over the
zipped lists (they always have equal length at the call sites). -/
def wOverSum (t : ℚ) : List (Option ℚ) → List ℚ → ℚ
  | v :: vs, w :: ws => (if overInd t v then w else 0) + wOverSum t vs ws
  | _, _ => 0

/-- `np.average(df_recent["PTS"].gt(point_line), weights=linspace(0.5,1,n)) * 100`
(lines 381-382, 444-445).  `none` when the weight mass is zero (empty
series; `np.average` would raise there, a path unreachable from
`final_over_probability`). -/
def weightedOverRate (l : List (Option ℚ)) (t : ℚ) : Option ℚ :=
  let ws := linspace (1/2) 1 l.length
  if ws.sum = 0 then none
  else some (100 * wOverSum t l ws / ws.sum)

def insertSorted (x : ℚ) : List ℚ → List ℚ
  | [] => [x]
  | y :: ys => if x ≤ y then x :: y :: ys else y :: insertSorted x ys

def sortAsc (l : List ℚ) : List ℚ := l.foldr insertSorted []

/-- `Series.quantile(p)` with pandas' default linear interpolation:
drop NaN, sort ascending, interpolate at rank `p*(n-1)`; NaN (`none`)
for an all-NaN series. -/
def quantile (l : List (Option ℚ)) (p : ℚ) : Option ℚ :=
  let s := sortAsc (l.filterMap id)
  match s with
  | [] => none
  | _ =>
    let n := s.length
    let h := p * ((n : ℚ) - 1)
    let lo := (Int.floor h).toNat
    let fr := h - ((Int.floor h : Int) : ℚ)
    let a := s.getD lo 0
    let b := s.getD (lo + 1) a
    some (a + fr * (b - a))

/-- `point_line > q` where `q` may be NaN (comparison then `False`). -/
def gtOpt (a : ℚ) : Option ℚ → Bool
  | none => false
  | some b => decide (b < a)

/-- `point_line < q` where `q` may be NaN. -/
def ltOpt (a : ℚ) : Option ℚ → Bool
  | none => false
  | some b => decide (a < b)

/-- Round half to even to the nearest integer. -/
def roundHalfEvenInt (x : ℚ) : Int :=
  if x - (Int.floor x : ℚ) < 1/2 then Int.floor x
  else if 1/2 < x - (Int.floor x : ℚ) then Int.floor x + 1
  else if Int.floor x % 2 = 0 then Int.floor x else Int.floor x + 1

/-- Python `round(x, 2)` (banker's rounding, half to even), on exact
rationals. -/
def round2 (q : ℚ) : ℚ :=
  (roundHalfEvenInt (q * 100) : ℚ) / 100

/-- Adaptive short rolling window `w_short = min(5, max(3, n // 4))`
(line 180). -/
def wShort (n : Nat) : Nat := min 5 (max 3 (n / 4))

/-- Adaptive medium rolling window `w_medium = min(10, max(5, n // 3))`
(line 181). -/
def wMedium (n : Nat) : Nat := min 10 (max 5 (n / 3))

/-- Number of non-NaN entries in the pandas rolling window of width `w`
ending at row `i`. -/
def presentInWindow (w : Nat) (pts : List (Option ℚ)) (i : Nat) : Nat :=
  (((pts.take (i + 1)).drop (i + 1 - w)).filterMap id).length

/-- Whether `Series.rolling(w, min_periods=minp).mean()` is defined
(non-NaN) at row `i`. -/
def rollingDefined (w minp : Nat) (pts : List (Option ℚ)) (i : Nat) : Bool :=
  minp ≤ presentInWindow w pts i

/-- The rows of the feature frame surviving
`dropna(subset=["avg_pts_last5", "avg_pts_last10"], how='any')`
(line 378): `avg_pts_last5` is `rolling(w_short, min_periods=2)` and
`avg_pts_last10` is `rolling(w_medium, min_periods=3)` over `PTS`
(lines 186-187).  No other feature column takes part in the row drop. -/
def featRows (l : List GameRow) : List GameRow :=
  let n := l.length
  let pts := l.map (fun g => g.pts)
  (l.enum.filter (fun p =>
    rollingDefined (wShort n) 2 pts p.1 && rollingDefined (wMedium n) 3 pts p.1)).map
    (fun p => p.2)

/-- The streak counter loop `get_streak` (lines 234-246), with the
running counter threaded explicitly: `none` points emit 0 without
touching the counter; an over increments (resetting to +1 from a
non-positive counter); a non-over decrements (resetting to -1 from a
non-negative counter). -/
def streakGo (t : ℚ) (c : Int) : List (Option ℚ) → List Int
  | [] => []
  | v :: rest =>
    match v with
    | none => 0 :: streakGo t c rest
    | some x =>
      if t < x then
        let c2 := if 0 ≤ c then c + 1 else 1
        c2 :: streakGo t c2 rest
      else
        let c2 := if c ≤ 0 then c - 1 else -1
        c2 :: streakGo t c2 rest

/-- `df["streak"] = get_streak(df["PTS"].values, point_line)`
(line 248). -/
def get_streak (series : List (Option ℚ)) (t : ℚ) : List Int :=
  streakGo t 0 series

/-!  Ensemble trainer and scorer (`train_ensemble_model`, lines
272-317, plus the scoring of lines 393-406). -/

/-- The sklearn/numpy library surface used by the trainer, abstracted:
`availableFeatures` models line 278 (the feature columns with more than
50% non-NaN values over the frame — a statistic of stat columns not
modelled here), and `fitAndScore` models fitting the voting ensemble
with time-decayed weights, optional isotonic calibration (lines
289-317) and scoring the most recent game(s) (lines 393-406); it
returns `prob_over ∈ [0,1]` (a `predict_proba` output) or the message
of any exception the libraries raise. -/
structure SkModel where
  availableFeatures : List GameRow → ℚ → List String
  fitAndScore : List GameRow → List String → ℚ → Except String ℚ

/-- `y.nunique() >= 2` for the derived over/under label
`(df["PTS"] > point_line).astype(int)` (lines 275, 286): both classes
are present. -/
def hasBothClasses (rows : List GameRow) (t : ℚ) : Bool :=
  rows.any (fun g => overInd t g.pts) && rows.any (fun g => !(overInd t g.pts))

/-- `train_ensemble_model` (lines 272-317) merged with the scoring it
enables: check the candidate-feature count (line 280, raising
`ValueError("Non abbastanza feature valide")`), then label variance
(line 286, raising `ValueError("Soglia troppo estrema: nessuna
variabilità OVER/UNDER")`), then fit and score through the abstracted
libraries.  Any `Except.error` models a raised exception, which
`final_over_probability`'s `except` intercepts. -/
def train_ensemble_model (sk : SkModel) (dfFeat : List GameRow) (point_line : ℚ) :
    Except String ℚ :=
  let feats := sk.availableFeatures dfFeat point_line
  if feats.length < 5 then Except.error "Non abbastanza feature valide"
  else if hasBothClasses dfFeat point_line = false then
    Except.error "Soglia troppo estrema: nessuna variabilità OVER/UNDER"
  else sk.fitAndScore dfFeat feats point_line

/-!  The tiered decision policy (`final_over_probability`, lines
323-453). -/

/-- `df.tail(recent_games)` (line 337). -/
def recentRows (df : List GameRow) (recent_games : Nat) : List GameRow :=
  df.drop (df.length - recent_games)

/-- Confidence label of the ensemble tier (line 421). -/
def ensembleConfidence (n_games : Nat) : String :=
  if 25 ≤ n_games then "high" else if 15 ≤ n_games then "medium" else "low"

/-- `final_over_probability` (lines 323-453).  The four tiers in
source order: insufficient data (< 5 games), extreme threshold (outside
the 5th-95th percentile band), feature-starved (< 8 rows after the
feature-frame dropna) and the ensemble; exceptions raised while
training/scoring degrade to the weighted-empirical fallback with a
`fallback_error` method tag.  Returns the outcome and the updated
monotonicity cache.  (`monte_carlo_simulations` is an unused source
parameter and is omitted.) -/
def final_over_probability (sk : SkModel) (df : List GameRow) (point_line : ℚ)
    (recent_games : Nat) (enforce_mono : Bool) (st : Cache) :
    DecisionOutcome × Cache :=
  let df_recent := recentRows df recent_games
  let n_games := df_recent.length
  let ptsR := df_recent.map (fun g => g.pts)
  if n_games < 5 then
    (⟨(empiricalOverRate ptsR point_line).map round2, "very_low",
      "empirical_fallback", n_games, false⟩, st)
  else if gtOpt point_line (quantile ptsR (19/20)) then
    (⟨(empiricalOverRate ptsR point_line).map round2, "low",
      "extreme_threshold_high", n_games, false⟩, st)
  else if ltOpt point_line (quantile ptsR (1/20)) then
    (⟨(empiricalOverRate ptsR point_line).map round2, "low",
      "extreme_threshold_low", n_games, false⟩, st)
  else
    let df_feat := featRows df_recent
    if df_feat.length < 8 then
      (⟨(weightedOverRate ptsR point_line).map round2, "low",
        "weighted_empirical", n_games, false⟩, st)
    else
      match train_ensemble_model sk df_feat point_line with
      | Except.error e =>
        (⟨(weightedOverRate ptsR point_line).map round2, "low",
          "fallback_error (" ++ e.take 50 ++ ")", n_games, false⟩, st)
      | Except.ok prob_over =>
        let raw := prob_over * 100
        if enforce_mono then
          let mr := enforce_monotonicity point_line raw df_recent st
          (⟨some (round2 mr.1.probability), ensembleConfidence n_games,
            "ensemble_ml (" ++ mr.1.method ++ ")", df_feat.length, mr.1.adjusted⟩,
            mr.2)
        else
          (⟨some (round2 raw), ensembleConfidence n_games,
            "ensemble_ml (no_adjustment)", df_feat.length, false⟩, st)

/-!  Concrete instances used by counterexamples and witnesses. -/

/-- An `SkModel` whose abstracted library calls always succeed: five
candidate features and a constant `predict_proba` of 1/2. -/
def skHalf : SkModel :=
  ⟨fun _ _ => ["f1", "f2", "f3", "f4", "f5"], fun _ _ _ => Except.ok (1/2)⟩

/-- A 3-game series with points 10, 20, 30. -/
def dfThree : List GameRow :=
  [⟨1, some 10, some 30⟩, ⟨2, some 20, some 30⟩, ⟨3, some 30, some 30⟩]

/-!  C7 — streak sign invariant. -/

/-- C7: in the streak sequence of the feature builder, the running
counter never flips sign without passing through the opposite-sign unit
value: a positive counter followed by a present non-over point becomes
exactly -1, a non-positive counter followed by an over becomes exactly
+1, and an absent point emits a streak value of 0 without altering the
running counter; `get_streak` is this loop started at counter 0. -/
theorem C7_streak_sign_invariant (t x : ℚ) (c : Int) (rest : List (Option ℚ)) :
    (0 < c → ¬ t < x → streakGo t c (some x :: rest) = -1 :: streakGo t (-1) rest)
    ∧ (c ≤ 0 → t < x → streakGo t c (some x :: rest) = 1 :: streakGo t 1 rest)
    ∧ streakGo t c (none :: rest) = 0 :: streakGo t c rest
    ∧ ∀ series : List (Option ℚ), get_streak series t = streakGo t 0 series := by
  refine ⟨?_, ?_, ?_, ?_⟩
  · intro hc hx
    simp only [streakGo, if_neg hx]
    have : ¬ c ≤ 0 := by omega
    rw [if_neg this]
  · intro hc hx
    by_cases h0 : (0 : Int) ≤ c
    · have hc0 : c = 0 := le_antisymm hc h0
      subst hc0
      simp only [streakGo, if_pos hx, if_pos h0]
      norm_num
    · simp only [streakGo, if_pos hx, if_neg h0]
  · rfl
  · intro series; rfl

/-- Witness for C7 at concrete inputs: a +3 counter seeing a non-over
10 against the line 15 emits exactly -1, and a -2 counter seeing an
over 20 emits exactly +1. -/
theorem C7_witness :
    streakGo 15 3 [some 10] = [-1] ∧ streakGo 15 (-2) [some 20] = [1] :=
  ⟨(C7_streak_sign_invariant 15 10 3 []).1 (by decide) (by decide),
   (C7_streak_sign_invariant 15 20 (-2) []).2.1 (by decide) (by decide)⟩

/-!  C3 — adjustment formulas of the monotonicity enforcer.

The claim states both corrections start from the current raw
probability.  The source starts from the reference (stored) probability
instead: downward it returns `prev_prob - decrement` (line 73), upward
`next_prob + increment` (line 96). -/

/-- C3 counterexample: with thresholds 10 (stored probability 50) and
20 (raw 60), the downward adjustment yields 49.5, not the
claim's 60 - min(0.5, (60-50)/2) = 59.5; with thresholds 20 (stored 60)
and 10 (raw 50), the upward adjustment yields 60.5, not the claim's
50 + min(0.5, (60-50)/2) = 50.5. -/
theorem C3_counterexample :
    ((enforce_monotonicity_bucket 20 60 (enforce_monotonicity_bucket 10 50 []).2).1.method
        = "adjusted_down_from_lower"
      ∧ (enforce_monotonicity_bucket 20 60
          (enforce_monotonicity_bucket 10 50 []).2).1.probability = 99/2
      ∧ (99/2 : ℚ) ≠ max 0 (60 - min (1/2) ((60 - 50) * (1/2))))
    ∧ ((enforce_monotonicity_bucket 10 50 (enforce_monotonicity_bucket 20 60 []).2).1.method
        = "adjusted_up_from_higher"
      ∧ (enforce_monotonicity_bucket 10 50
          (enforce_monotonicity_bucket 20 60 []).2).1.probability = 121/2
      ∧ (121/2 : ℚ) ≠ min 100 (50 + min (1/2) ((60 - 50) * (1/2)))) := by
  have h1 : enforce_monotonicity_bucket 20 60 (enforce_monotonicity_bucket 10 50 []).2 =
      (⟨99/2, true, "adjusted_down_from_lower", some 60, some 10, some 50⟩,
        [(10, 50), (20, 99/2)]) := by
    norm_num [enforce_monotonicity_bucket, bucketSet, bucketGet, bucketKeys, lowerKey,
      upperKey, maxQ, minQ, monoUpper, List.filter, List.find?]
  have h2 : enforce_monotonicity_bucket 10 50 (enforce_monotonicity_bucket 20 60 []).2 =
      (⟨121/2, true, "adjusted_up_from_higher", some 50, some 20, some 60⟩,
        [(20, 60), (10, 121/2)]) := by
    norm_num [enforce_monotonicity_bucket, bucketSet, bucketGet, bucketKeys, lowerKey,
      upperKey, maxQ, minQ, monoUpper, List.filter, List.find?]
  rw [h1, h2]
  refine ⟨⟨rfl, rfl, by norm_num⟩, ⟨rfl, rfl, by norm_num⟩⟩

/-- C3 amended: whenever the enforcer adjusts, the downward-adjusted
value equals the LOWER threshold's stored probability reduced by
min(0.5, half the excess of the raw probability over it), clamped to
≥ 0, and the upward-adjusted value equals the HIGHER threshold's stored
probability increased by min(0.5, half its excess over the raw
probability), clamped to ≤ 100; in both cases the adjusted value is
persisted as the bucket entry for the current threshold and the method
tag is as the claim states.  (Only the base of each correction differs
from the claim: stored reference probability, not raw.) -/
theorem C3_amended :
    (∀ (b : Bucket) (t raw pt : ℚ),
      (bucketKeys (bucketSet b t raw)).length ≠ 1 →
      lowerKey (bucketSet b t raw) t = some pt →
      bucketGet (bucketSet b t raw) pt < raw →
      enforce_monotonicity_bucket t raw b =
        (⟨max 0 (bucketGet (bucketSet b t raw) pt
            - min (1/2) ((raw - bucketGet (bucketSet b t raw) pt) * (1/2))),
          true, "adjusted_down_from_lower", some raw, some pt,
          some (bucketGet (bucketSet b t raw) pt)⟩,
          bucketSet (bucketSet b t raw) t
            (max 0 (bucketGet (bucketSet b t raw) pt
              - min (1/2) ((raw - bucketGet (bucketSet b t raw) pt) * (1/2))))))
    ∧ (∀ (b : Bucket) (t raw nt : ℚ),
      upperKey b t = some nt →
      raw < bucketGet b nt →
      monoUpper t raw b =
        (⟨min 100 (bucketGet b nt + min (1/2) ((bucketGet b nt - raw) * (1/2))),
          true, "adjusted_up_from_higher", some raw, some nt, some (bucketGet b nt)⟩,
          bucketSet b t
            (min 100 (bucketGet b nt + min (1/2) ((bucketGet b nt - raw) * (1/2))))))
    ∧ (∀ (b : Bucket) (t raw : ℚ),
      (bucketKeys (bucketSet b t raw)).length ≠ 1 →
      lowerKey (bucketSet b t raw) t = none →
      enforce_monotonicity_bucket t raw b = monoUpper t raw (bucketSet b t raw))
    ∧ (∀ (b : Bucket) (t raw pt : ℚ),
      (bucketKeys (bucketSet b t raw)).length ≠ 1 →
      lowerKey (bucketSet b t raw) t = some pt →
      ¬ bucketGet (bucketSet b t raw) pt < raw →
      enforce_monotonicity_bucket t raw b = monoUpper t raw (bucketSet b t raw)) := by
  refine ⟨?_, ?_, ?_, ?_⟩
  · intro b t raw pt hk hl hv
    simp only [enforce_monotonicity_bucket, hl, if_neg hk, if_pos hv]
  · intro b t raw nt hu hv
    simp only [monoUpper, hu, if_pos hv]
  · intro b t raw hk hl
    simp only [enforce_monotonicity_bucket, hl, if_neg hk]
  · intro b t raw pt hk hl hv
    simp only [enforce_monotonicity_bucket, hl, if_neg hk, if_neg hv]

/-- Witness for C3 at concrete inputs, also fixing the concrete values
of both adjusted probabilities and updated buckets. -/
theorem C3_witness :
    enforce_monotonicity_bucket 20 60 [(10, 50)] =
      (⟨99/2, true, "adjusted_down_from_lower", some 60, some 10, some 50⟩,
        [(10, 50), (20, 99/2)])
    ∧ monoUpper 10 50 [(20, 60)] =
      (⟨121/2, true, "adjusted_up_from_higher", some 50, some 20, some 60⟩,
        [(20, 60), (10, 121/2)]) := by
  constructor
  · refine (C3_amended.1 [(10, 50)] 20 60 10 (by norm_num [bucketSet, bucketKeys])
      (by norm_num [bucketSet, bucketKeys, lowerKey, maxQ, List.filter])
      (by norm_num [bucketSet, bucketGet, List.find?])).trans ?_
    norm_num [bucketSet, bucketGet, List.find?, Prod.ext_iff]
  · refine (C3_amended.2.1 [(20, 60)] 10 50 20
      (by norm_num [upperKey, bucketKeys, minQ, List.filter])
      (by norm_num [bucketGet, List.find?])).trans ?_
    norm_num [bucketSet, bucketGet, List.find?, Prod.ext_iff]

/-!  C4 — normalizer failure modes.

The claim states a typed parse failure also when no rows survive
filtering; the source silently returns an empty frame there (pandas
raises nothing on an empty filtered frame, lines 132-168). -/

/-- A table whose required columns are all present but whose single row
has a NaN `Rk` cell, so every row is filtered out. -/
def tbAllFiltered : RawTable :=
  ⟨true, true, true, true, [⟨none, some 1, some (MPCell.numFmt 30), some 20⟩]⟩

/-- C4 counterexample: on a headered table with `Rk`, `Date` and `MP`
columns present whose rows are all filtered out, `parse_player_csv`
returns a silent empty result, not a typed failure. -/
theorem C4_counterexample :
    parse_player_csv tbAllFiltered = Except.ok []
    ∧ tbAllFiltered.rows.length = 1
    ∧ survivingRows tbAllFiltered.rows = [] := ⟨rfl, rfl, rfl⟩

/-- C4 amended: the normalizer fails with a typed error for input with
no header and for input entirely lacking the row-index or date column;
but when the required columns are present and no rows survive
filtering, it returns an empty record sequence without error. -/
theorem C4_amended (tb : RawTable) :
    (tb.hasHeader = false → parse_player_csv tb = Except.error ParseErr.emptyData)
    ∧ (tb.hasHeader = true → tb.hasRk = false →
        parse_player_csv tb = Except.error (ParseErr.keyError "Rk"))
    ∧ (tb.hasHeader = true → tb.hasRk = true → tb.hasDate = false →
        parse_player_csv tb = Except.error (ParseErr.keyError "Date"))
    ∧ (tb.hasHeader = true → tb.hasRk = true → tb.hasDate = true → tb.hasMP = true →
        survivingRows tb.rows = [] → parse_player_csv tb = Except.ok []) := by
  refine ⟨?_, ?_, ?_, ?_⟩
  · intro h1; simp [parse_player_csv, h1]
  · intro h1 h2; simp [parse_player_csv, h1, h2]
  · intro h1 h2 h3; simp [parse_player_csv, h1, h2, h3]
  · intro h1 h2 h3 h4 hs; simp [parse_player_csv, h1, h2, h3, h4, hs, sortByDate]

/-- Witness for C4 at concrete tables exercising all four cases. -/
theorem C4_witness :
    parse_player_csv ⟨false, true, true, true, []⟩ = Except.error ParseErr.emptyData
    ∧ parse_player_csv ⟨true, false, true, true, []⟩ = Except.error (ParseErr.keyError "Rk")
    ∧ parse_player_csv ⟨true, true, false, true, []⟩ =
        Except.error (ParseErr.keyError "Date")
    ∧ parse_player_csv tbAllFiltered = Except.ok [] :=
  ⟨(C4_amended ⟨false, true, true, true, []⟩).1 rfl,
   (C4_amended ⟨true, false, true, true, []⟩).2.1 rfl rfl,
   (C4_amended ⟨true, true, false, true, []⟩).2.2.1 rfl rfl rfl,
   (C4_amended tbAllFiltered).2.2.2 rfl rfl rfl rfl rfl⟩

/-!  C8 — the insufficient-data tier. -/

/-- C8 counterexample: a 3-game window (fewer than 5 games) with one
game under and two over the line 15 returns 66.67 — the over-fraction
times 100 rounded to two decimals — which is not equal to the
over-fraction times 100 (= 200/3) that the claim states. -/
theorem C8_counterexample :
    (final_over_probability skHalf dfThree 15 35 true []).1.probability = some (6667/100)
    ∧ (final_over_probability skHalf dfThree 15 35 true []).1.method_used
        = "empirical_fallback"
    ∧ ((6667 : ℚ)/100) ≠ 100 * (2/3) := by
  refine ⟨?_, rfl, by norm_num⟩
  norm_num [final_over_probability, recentRows, dfThree, empiricalOverRate, countOver,
    overInd, round2, roundHalfEvenInt, List.filter]

/-- C8 amended: for every nonempty recent window of fewer than 5 games
and every threshold, `final_over_probability` returns
method = `empirical_fallback`, confidence = `very_low`, the window
length as sample size, and the over-fraction times 100 rounded to two
decimals as probability, leaving the cache untouched (no later tier is
reached). -/
theorem C8_amended (sk : SkModel) (df : List GameRow) (t : ℚ) (r : Nat) (em : Bool)
    (st : Cache) (h1 : 1 ≤ (recentRows df r).length)
    (h4 : (recentRows df r).length < 5) :
    final_over_probability sk df t r em st =
      (⟨some (round2 (100 * (countOver ((recentRows df r).map (fun g => g.pts)) t : ℚ)
          / ((recentRows df r).length : ℚ))),
        "very_low", "empirical_fallback", (recentRows df r).length, false⟩, st) := by
  simp only [final_over_probability, empiricalOverRate, List.length_map]
  rw [if_pos h4, if_neg (by omega)]
  rfl

/-- Witness for C8 at the concrete 3-game series. -/
theorem C8_witness :
    final_over_probability skHalf dfThree 15 35 true [] =
      (⟨some (round2 (100 * (countOver ((recentRows dfThree 35).map (fun g => g.pts)) 15 : ℚ)
          / ((recentRows dfThree 35).length : ℚ))),
        "very_low", "empirical_fallback", (recentRows dfThree 35).length, false⟩, []) :=
  C8_amended skHalf dfThree 15 35 true [] (by decide) (by decide)

/-!  C1 — cross-threshold monotonicity of returned probabilities.

With only two thresholds ever evaluated for a fingerprint the property
holds (see the amended theorem), but as soon as other thresholds are
cached the enforcer's neighbour-only check can leave the bucket
non-monotone and return a lower probability for a lower threshold. -/

/-- A 12-game series alternating low and high scores: every threshold
in 5..20 lies strictly between the 5th and 95th points percentiles, and
10 feature-complete rows survive, so every call below reaches the
ensemble tier. -/
def dfC1 : List GameRow :=
  [⟨1, some 0, some 30⟩, ⟨2, some 25, some 30⟩, ⟨3, some 1, some 30⟩, ⟨4, some 24, some 30⟩,
   ⟨5, some 2, some 30⟩, ⟨6, some 23, some 30⟩, ⟨7, some 3, some 30⟩, ⟨8, some 22, some 30⟩,
   ⟨9, some 4, some 30⟩, ⟨10, some 21, some 30⟩, ⟨11, some 28, some 30⟩, ⟨12, some 30, some 30⟩]

/-- The points fingerprint of `dfC1` (12 games, so the tail-35 window
is the whole series). -/
def ptsC1 : List (Option ℚ) :=
  [some 0, some 25, some 1, some 24, some 2, some 23, some 3, some 22,
   some 4, some 21, some 28, some 30]

/-- An `SkModel` instance: five candidate features, and `predict_proba`
outputs 0.49, 0.493, 0.5, 0.49 at thresholds 15, 5, 10, 20 — all
legitimate values in [0,1]. -/
def skC1 : SkModel :=
  ⟨fun _ _ => ["f1", "f2", "f3", "f4", "f5"],
   fun _ _ t => Except.ok (if t = 15 then 49/100 else if t = 5 then 493/1000
     else if t = 10 then 1/2 else 49/100)⟩

set_option maxHeartbeats 4000000 in
/-- C1 counterexample: four predictions for the same fingerprint, all
reaching the ensemble tier with enforcement enabled, at thresholds 15,
5, 10, 20.  For the pair t1 = 10 < t2 = 20 (evaluated in that order)
the returned probability for t1 is 48.95, strictly BELOW the 49
returned for t2: enforcement corrected the t=10 call down from its
lower neighbour (threshold 5, stored 49.3) below the stored value of
threshold 15 (49), and the t=20 call then found no violation against
its immediate lower neighbour 15. -/
theorem C1_counterexample :
    ((10 : ℚ) < 20)
    ∧ (final_over_probability skC1 dfC1 10 35 true
        (final_over_probability skC1 dfC1 5 35 true
          (final_over_probability skC1 dfC1 15 35 true []).2).2).1.method_used
        = "ensemble_ml (adjusted_down_from_lower)"
    ∧ (final_over_probability skC1 dfC1 10 35 true
        (final_over_probability skC1 dfC1 5 35 true
          (final_over_probability skC1 dfC1 15 35 true []).2).2).1.probability
        = some (979/20)
    ∧ (final_over_probability skC1 dfC1 20 35 true
        (final_over_probability skC1 dfC1 10 35 true
          (final_over_probability skC1 dfC1 5 35 true
            (final_over_probability skC1 dfC1 15 35 true []).2).2).2).1.method_used
        = "ensemble_ml (raw_ml)"
    ∧ (final_over_probability skC1 dfC1 20 35 true
        (final_over_probability skC1 dfC1 10 35 true
          (final_over_probability skC1 dfC1 5 35 true
            (final_over_probability skC1 dfC1 15 35 true []).2).2).2).1.probability
        = some 49
    ∧ ((979 : ℚ)/20) < 49 := by
  have h1 : final_over_probability skC1 dfC1 15 35 true [] =
      (⟨some 49, "low", "ensemble_ml (raw_ml)", 10, false⟩, [(ptsC1, [(15, 49)])]) := by
    norm_num [final_over_probability, recentRows, dfC1, skC1, empiricalOverRate, countOver,
      overInd, round2, roundHalfEvenInt, List.filter, quantile, sortAsc, insertSorted, gtOpt, ltOpt, featRows,
      wShort, wMedium, rollingDefined, presentInWindow, List.enum, List.enumFrom,
      train_ensemble_model, hasBothClasses, enforce_monotonicity, enforce_monotonicity_bucket,
      bucketSet, bucketGet, bucketKeys, lowerKey, upperKey, maxQ, minQ, monoUpper,
      get_player_hash, weightedOverRate, linspace, wOverSum, List.find?, ensembleConfidence,
      List.filterMap_cons, Int.fract, List.getD, ptsC1, Prod.ext_iff]
    norm_num [show Int.toNat 10 = 10 from rfl, show Int.toNat 0 = 0 from rfl]
    all_goals rfl
  have h2 : final_over_probability skC1 dfC1 5 35 true [(ptsC1, [(15, 49)])] =
      (⟨some (493/10), "low", "ensemble_ml (raw_ml)", 10, false⟩,
        [(ptsC1, [(15, 49), (5, 493/10)])]) := by
    norm_num [final_over_probability, recentRows, dfC1, skC1, empiricalOverRate, countOver,
      overInd, round2, roundHalfEvenInt, List.filter, quantile, sortAsc, insertSorted, gtOpt, ltOpt, featRows,
      wShort, wMedium, rollingDefined, presentInWindow, List.enum, List.enumFrom,
      train_ensemble_model, hasBothClasses, enforce_monotonicity, enforce_monotonicity_bucket,
      bucketSet, bucketGet, bucketKeys, lowerKey, upperKey, maxQ, minQ, monoUpper,
      get_player_hash, weightedOverRate, linspace, wOverSum, List.find?, ensembleConfidence,
      List.filterMap_cons, Int.fract, List.getD, ptsC1, Prod.ext_iff]
    norm_num [show Int.toNat 10 = 10 from rfl, show Int.toNat 0 = 0 from rfl]
    all_goals rfl
  have h3 : final_over_probability skC1 dfC1 10 35 true
      [(ptsC1, [(15, 49), (5, 493/10)])] =
      (⟨some (979/20), "low", "ensemble_ml (adjusted_down_from_lower)", 10, true⟩,
        [(ptsC1, [(15, 49), (5, 493/10), (10, 979/20)])]) := by
    norm_num [final_over_probability, recentRows, dfC1, skC1, empiricalOverRate, countOver,
      overInd, round2, roundHalfEvenInt, List.filter, quantile, sortAsc, insertSorted, gtOpt, ltOpt, featRows,
      wShort, wMedium, rollingDefined, presentInWindow, List.enum, List.enumFrom,
      train_ensemble_model, hasBothClasses, enforce_monotonicity, enforce_monotonicity_bucket,
      bucketSet, bucketGet, bucketKeys, lowerKey, upperKey, maxQ, minQ, monoUpper,
      get_player_hash, weightedOverRate, linspace, wOverSum, List.find?, ensembleConfidence,
      List.filterMap_cons, Int.fract, List.getD, ptsC1, Prod.ext_iff]
    norm_num [show Int.toNat 10 = 10 from rfl, show Int.toNat 0 = 0 from rfl]
    all_goals rfl
  have h4 : final_over_probability skC1 dfC1 20 35 true
      [(ptsC1, [(15, 49), (5, 493/10), (10, 979/20)])] =
      (⟨some 49, "low", "ensemble_ml (raw_ml)", 10, false⟩,
        [(ptsC1, [(15, 49), (5, 493/10), (10, 979/20), (20, 49)])]) := by
    norm_num [final_over_probability, recentRows, dfC1, skC1, empiricalOverRate, countOver,
      overInd, round2, roundHalfEvenInt, List.filter, quantile, sortAsc, insertSorted, gtOpt, ltOpt, featRows,
      wShort, wMedium, rollingDefined, presentInWindow, List.enum, List.enumFrom,
      train_ensemble_model, hasBothClasses, enforce_monotonicity, enforce_monotonicity_bucket,
      bucketSet, bucketGet, bucketKeys, lowerKey, upperKey, maxQ, minQ, monoUpper,
      get_player_hash, weightedOverRate, linspace, wOverSum, List.find?, ensembleConfidence,
      List.filterMap_cons, Int.fract, List.getD, ptsC1, Prod.ext_iff]
    norm_num [show Int.toNat 10 = 10 from rfl, show Int.toNat 0 = 0 from rfl]
    all_goals rfl
  simp only [h1, h2, h3, h4]
  norm_num

/-!  C5 — handling of the single-class (InsufficientVariance) failure.

The trainer does raise a typed `ValueError` when the over/under label
has one class (line 287), but `final_over_probability` wraps the whole
ensemble tier in `try`/`except` (lines 376, 443): the condition never
reaches the caller of `predict`; it degrades to the weighted-empirical
fallback with the message embedded in the method tag. -/

/-- A 12-game series with every game at exactly 20 points: the
threshold 20 is inside the percentile band, 10 feature rows survive,
and the over label is single-class (every game is under). -/
def dfC5 : List GameRow :=
  [⟨1, some 20, some 30⟩, ⟨2, some 20, some 30⟩, ⟨3, some 20, some 30⟩, ⟨4, some 20, some 30⟩,
   ⟨5, some 20, some 30⟩, ⟨6, some 20, some 30⟩, ⟨7, some 20, some 30⟩, ⟨8, some 20, some 30⟩,
   ⟨9, some 20, some 30⟩, ⟨10, some 20, some 30⟩, ⟨11, some 20, some 30⟩, ⟨12, some 20, some 30⟩]

set_option maxHeartbeats 1000000 in
/-- C5 counterexample: on a series the threshold separates perfectly,
`predict` returns a normal `DecisionOutcome` — the weighted-empirical
fallback, with the InsufficientVariance message truncated into the
method tag — instead of surfacing the typed failure to its caller. -/
theorem C5_counterexample :
    final_over_probability skHalf dfC5 20 35 true [] =
      (⟨some 0, "low",
        "fallback_error ("
          ++ "Soglia troppo estrema: nessuna variabilità OVER/UNDER".take 50 ++ ")",
        12, false⟩, []) := by
  norm_num [final_over_probability, recentRows, dfC5, skHalf, empiricalOverRate, countOver,
    overInd, round2, roundHalfEvenInt, List.filter, quantile, sortAsc, insertSorted, gtOpt, ltOpt, featRows,
    wShort, wMedium, rollingDefined, presentInWindow, List.enum, List.enumFrom,
    train_ensemble_model, hasBothClasses, weightedOverRate, linspace, wOverSum,
    List.filterMap_cons, Int.fract, List.getD, Prod.ext_iff, List.range_succ]
  all_goals norm_num [show Int.toNat 10 = 10 from rfl, show Int.toNat 0 = 0 from rfl]

/-- C5 amended: when the ensemble tier is reached with enough candidate
features and the derived over/under label has a single class, the
trainer raises the typed InsufficientVariance failure, but
`final_over_probability` catches it internally and returns the
weighted-empirical fallback outcome with confidence `low` and the
human-readable reason truncated into the `fallback_error` method tag;
nothing is surfaced to the caller of `predict` and the cache is left
untouched. -/
theorem C5_amended (sk : SkModel) (df : List GameRow) (t : ℚ) (r : Nat) (em : Bool)
    (st : Cache)
    (h5 : ¬ (recentRows df r).length < 5)
    (hq1 : gtOpt t (quantile ((recentRows df r).map (fun g => g.pts)) (19/20)) = false)
    (hq2 : ltOpt t (quantile ((recentRows df r).map (fun g => g.pts)) (1/20)) = false)
    (hfeat : ¬ (featRows (recentRows df r)).length < 8)
    (hfc : ¬ (sk.availableFeatures (featRows (recentRows df r)) t).length < 5)
    (hvar : hasBothClasses (featRows (recentRows df r)) t = false) :
    final_over_probability sk df t r em st =
      (⟨(weightedOverRate ((recentRows df r).map (fun g => g.pts)) t).map round2, "low",
        "fallback_error ("
          ++ "Soglia troppo estrema: nessuna variabilità OVER/UNDER".take 50 ++ ")",
        (recentRows df r).length, false⟩, st) := by
  have htr : train_ensemble_model sk (featRows (recentRows df r)) t =
      Except.error "Soglia troppo estrema: nessuna variabilità OVER/UNDER" := by
    simp only [train_ensemble_model]
    rw [if_neg hfc, hvar]
    simp
  simp only [final_over_probability]
  rw [if_neg h5, hq1, hq2]
  simp only [Bool.false_eq_true, if_false]
  rw [if_neg hfeat, htr]

/-- Witness for C5 at the concrete all-20 series: the amended theorem
instantiates to the concrete fallback outcome. -/
theorem C5_witness :
    final_over_probability skHalf dfC5 20 35 true [] =
      (⟨(weightedOverRate ((recentRows dfC5 35).map (fun g => g.pts)) 20).map round2, "low",
        "fallback_error ("
          ++ "Soglia troppo estrema: nessuna variabilità OVER/UNDER".take 50 ++ ")",
        (recentRows dfC5 35).length, false⟩, []) := by
  refine C5_amended skHalf dfC5 20 35 true [] (by decide) ?_ ?_ (by decide) (by decide) ?_
  · norm_num [quantile, recentRows, dfC5, sortAsc, insertSorted, List.filterMap_cons,
      Int.fract, List.getD, gtOpt]
    all_goals norm_num [show Int.toNat 10 = 10 from rfl]
  · norm_num [quantile, recentRows, dfC5, sortAsc, insertSorted, List.filterMap_cons,
      Int.fract, List.getD, ltOpt]
  · norm_num [hasBothClasses, featRows, recentRows, dfC5, overInd, wShort, wMedium,
      rollingDefined, presentInWindow, List.enum, List.enumFrom, List.filterMap_cons]

/-!  C10 — missing points in the empirical estimators. -/

/-- C10: in the empirical estimators used by every empirical tier of
`final_over_probability` (`empiricalOverRate` for the insufficient-data
and extreme-threshold tiers, `weightedOverRate` for the
weighted-empirical and error-fallback tiers), a game with absent points
counts as not exceeding the threshold while remaining in the
denominator: the rate over a list with an extra absent game keeps the
same over count but a one-larger denominator, so it is no larger than
the rate without that game — strictly smaller when any over is present
— and in the weighted average an absent game contributes zero to the
numerator while its weight still occurs (the weight vector spans the
full window, absent games included). -/
theorem C10_missing_points_lower_probability (t : ℚ) (l1 l2 : List (Option ℚ)) :
    empiricalOverRate (l1 ++ none :: l2) t
      = some (100 * ((countOver l1 t + countOver l2 t : Nat) : ℚ)
          / ((l1.length + l2.length + 1 : Nat) : ℚ))
    ∧ (∀ q1 q2, empiricalOverRate (l1 ++ none :: l2) t = some q1 →
        empiricalOverRate (l1 ++ l2) t = some q2 → q1 ≤ q2)
    ∧ (∀ q1 q2, 0 < countOver (l1 ++ l2) t →
        empiricalOverRate (l1 ++ none :: l2) t = some q1 →
        empiricalOverRate (l1 ++ l2) t = some q2 → q1 < q2)
    ∧ (∀ (w : ℚ) (ws : List ℚ), wOverSum t (none :: l2) (w :: ws) = wOverSum t l2 ws) := by
  have hcnt : countOver (l1 ++ none :: l2) t = countOver l1 t + countOver l2 t := by
    simp [countOver, List.filter_append, overInd]
  have hcnt2 : countOver (l1 ++ l2) t = countOver l1 t + countOver l2 t := by
    simp [countOver, List.filter_append]
  have hlen : (l1 ++ none :: l2).length = l1.length + l2.length + 1 := by
    simp [List.length_append]; omega
  have hlen2 : (l1 ++ l2).length = l1.length + l2.length := by
    simp [List.length_append]
  have hv1 : empiricalOverRate (l1 ++ none :: l2) t
      = some (100 * ((countOver l1 t + countOver l2 t : Nat) : ℚ)
          / ((l1.length + l2.length + 1 : Nat) : ℚ)) := by
    simp only [empiricalOverRate, hcnt, hlen]
    rw [if_neg (by omega)]
  have hv2 : l1.length + l2.length ≠ 0 → empiricalOverRate (l1 ++ l2) t
      = some (100 * ((countOver l1 t + countOver l2 t : Nat) : ℚ)
          / ((l1.length + l2.length : Nat) : ℚ)) := by
    intro hz
    simp only [empiricalOverRate, hcnt2, hlen2]
    rw [if_neg hz]
  refine ⟨hv1, ?_, ?_, ?_⟩
  · intro q1 q2 hq1 hq2
    have hz : l1.length + l2.length ≠ 0 := by
      intro hz0
      rw [empiricalOverRate, if_pos (by rw [hlen2]; exact hz0)] at hq2
      exact Option.noConfusion hq2
    have e1 : 100 * ((countOver l1 t + countOver l2 t : Nat) : ℚ)
        / ((l1.length + l2.length + 1 : Nat) : ℚ) = q1 :=
      Option.some_inj.mp (hv1.symm.trans hq1)
    have e2 : 100 * ((countOver l1 t + countOver l2 t : Nat) : ℚ)
        / ((l1.length + l2.length : Nat) : ℚ) = q2 :=
      Option.some_inj.mp ((hv2 hz).symm.trans hq2)
    rw [← e1, ← e2]
    have hnq : (0 : ℚ) < ((l1.length + l2.length : Nat) : ℚ) := by
      exact_mod_cast Nat.pos_of_ne_zero hz
    apply div_le_div_of_nonneg_left (by positivity) hnq
    push_cast
    linarith
  · intro q1 q2 hk hq1 hq2
    have hz : l1.length + l2.length ≠ 0 := by
      intro hz0
      rw [empiricalOverRate, if_pos (by rw [hlen2]; exact hz0)] at hq2
      exact Option.noConfusion hq2
    have e1 : 100 * ((countOver l1 t + countOver l2 t : Nat) : ℚ)
        / ((l1.length + l2.length + 1 : Nat) : ℚ) = q1 :=
      Option.some_inj.mp (hv1.symm.trans hq1)
    have e2 : 100 * ((countOver l1 t + countOver l2 t : Nat) : ℚ)
        / ((l1.length + l2.length : Nat) : ℚ) = q2 :=
      Option.some_inj.mp ((hv2 hz).symm.trans hq2)
    rw [← e1, ← e2]
    have hnq : (0 : ℚ) < ((l1.length + l2.length : Nat) : ℚ) := by
      exact_mod_cast Nat.pos_of_ne_zero hz
    have hkq : (0 : ℚ) < 100 * ((countOver l1 t + countOver l2 t : Nat) : ℚ) := by
      rw [hcnt2] at hk
      have h0 : (0 : ℚ) < ((countOver l1 t + countOver l2 t : Nat) : ℚ) := by
        exact_mod_cast hk
      linarith
    apply div_lt_div_of_pos_left hkq hnq
    push_cast
    linarith
  · intro w ws
    simp [wOverSum, overInd]

/-- Witness for C10 at a concrete window: adding an absent-points game
to [30, 10] against the line 20 keeps the single over in the numerator,
grows the denominator to 3, and strictly lowers the rate (100/3 < 50). -/
theorem C10_witness :
    empiricalOverRate [some 30, none, some 10] 20
      = some (100 * ((countOver [some (30 : ℚ)] 20 + countOver [some (10 : ℚ)] 20 : Nat) : ℚ)
          / ((3 : Nat) : ℚ))
    ∧ (100 / 3 : ℚ) < 50 := by
  constructor
  · exact (C10_missing_points_lower_probability 20 [some 30] [some 10]).1
  · refine (C10_missing_points_lower_probability 20 [some 30] [some 10]).2.2.1
      (100/3) 50 ?_ ?_ ?_
    · simp [countOver, overInd, List.filter]
      norm_num
    · norm_num [empiricalOverRate, countOver, overInd, List.filter]
    · norm_num [empiricalOverRate, countOver, overInd, List.filter]

/-!  C9 — determinism after a cache reset. -/

/-- C9: two calls to the predictor with identical records, threshold,
window and enforcement flag, each made on a freshly reset cache, yield
identical outcomes (and identical final cache states): `clear_cache`
discards every prior cache state, and the engine is deterministic (the
source fixes every estimator seed, and sklearn is modelled as the fixed
function `sk`). -/
theorem C9_idempotent_after_reset (sk : SkModel) (df : List GameRow) (t : ℚ)
    (r : Nat) (em : Bool) (s1 s2 : Cache) :
    final_over_probability sk df t r em (clear_cache s1) =
      final_over_probability sk df t r em (clear_cache s2) := rfl

/-!  Range lemmas for the estimators, used by C2 and C6. -/

lemma roundHalfEvenInt_ge_floor (x : ℚ) : Int.floor x ≤ roundHalfEvenInt x := by
  simp only [roundHalfEvenInt]
  split_ifs <;> omega

lemma roundHalfEvenInt_le_floor_succ (x : ℚ) : roundHalfEvenInt x ≤ Int.floor x + 1 := by
  simp only [roundHalfEvenInt]
  split_ifs <;> omega

lemma round2_nonneg (q : ℚ) (h : 0 ≤ q) : 0 ≤ round2 q := by
  have hf : 0 ≤ Int.floor (q * 100) := Int.floor_nonneg.mpr (by positivity)
  have hr := roundHalfEvenInt_ge_floor (q * 100)
  have : (0 : ℚ) ≤ (roundHalfEvenInt (q * 100) : ℚ) := by exact_mod_cast le_trans hf hr
  simp only [round2]
  positivity

lemma round2_le_hundred (q : ℚ) (h : q ≤ 100) : round2 q ≤ 100 := by
  have hx : q * 100 ≤ 10000 := by linarith
  have hi : roundHalfEvenInt (q * 100) ≤ 10000 := by
    simp only [roundHalfEvenInt]
    have hfle : (Int.floor (q * 100) : ℚ) ≤ q * 100 := Int.floor_le _
    have hfub : Int.floor (q * 100) ≤ 10000 := by
      have : Int.floor (q * 100) ≤ Int.floor (10000 : ℚ) := Int.floor_le_floor hx
      simpa using this
    split_ifs with h1 h2 h3
    · exact hfub
    · have h9999 : Int.floor (q * 100) ≤ 9999 := by
        have hq : (Int.floor (q * 100) : ℚ) ≤ 19999 / 2 := by linarith
        have : (Int.floor (q * 100) : ℚ) < 10000 := lt_of_le_of_lt hq (by norm_num)
        have : Int.floor (q * 100) < 10000 := by exact_mod_cast this
        omega
      omega
    · exact hfub
    · have h9999 : Int.floor (q * 100) ≤ 9999 := by
        have hq : (Int.floor (q * 100) : ℚ) ≤ 19999 / 2 := by linarith
        have : (Int.floor (q * 100) : ℚ) < 10000 := lt_of_le_of_lt hq (by norm_num)
        have : Int.floor (q * 100) < 10000 := by exact_mod_cast this
        omega
      omega
  have : (roundHalfEvenInt (q * 100) : ℚ) ≤ 10000 := by exact_mod_cast hi
  simp only [round2]
  rw [div_le_iff₀ (by norm_num : (0 : ℚ) < 100)]
  linarith

lemma empiricalOverRate_mem (t : ℚ) (l : List (Option ℚ)) (h : l.length ≠ 0) :
    ∃ q, empiricalOverRate l t = some q ∧ 0 ≤ q ∧ q ≤ 100 := by
  refine ⟨100 * (countOver l t : ℚ) / (l.length : ℚ), ?_, ?_, ?_⟩
  · simp only [empiricalOverRate]
    rw [if_neg h]
  · positivity
  · have hc : countOver l t ≤ l.length := List.length_filter_le _ _
    have hl0 : (0 : ℚ) < (l.length : ℚ) := by exact_mod_cast Nat.pos_of_ne_zero h
    rw [div_le_iff₀ hl0]
    have hcq : (countOver l t : ℚ) ≤ (l.length : ℚ) := by exact_mod_cast hc
    linarith

lemma linspace_two_plus (a b : ℚ) (k : Nat) :
    linspace a b (k + 2) = (List.range (k + 2)).map
      (fun i : Nat => a + (b - a) * (i : ℚ) / (((k + 2 : Nat) : ℚ) - 1)) := rfl

lemma linspace_half_one_nonneg (n : Nat) :
    ∀ w ∈ linspace (1/2) 1 n, (1/2 : ℚ) ≤ w := by
  rcases n with _ | _ | k
  · intro w hw
    simp [linspace] at hw
  · intro w hw
    simp only [linspace, List.mem_singleton] at hw
    subst hw
    norm_num
  · intro w hw
    rw [linspace_two_plus, List.mem_map] at hw
    obtain ⟨i, hi, hw⟩ := hw
    subst hw
    have hd : (0 : ℚ) < ((k + 2 : Nat) : ℚ) - 1 := by
      push_cast
      linarith
    have hnum : (0 : ℚ) ≤ (1 - 1/2) * (i : ℚ) := by
      have h0i : (0 : ℚ) ≤ (i : ℚ) := Nat.cast_nonneg i
      linarith
    have hdiv : (0 : ℚ) ≤ (1 - 1/2) * (i : ℚ) / (((k + 2 : Nat) : ℚ) - 1) :=
      div_nonneg hnum (le_of_lt hd)
    linarith

lemma linspace_length (a b : ℚ) (n : Nat) : (linspace a b n).length = n := by
  rcases n with _ | _ | k
  · rfl
  · rfl
  · rw [linspace_two_plus, List.length_map, List.length_range]

lemma linspace_sum_pos (n : Nat) (h : n ≠ 0) : 0 < (linspace (1/2) 1 n).sum := by
  have hne : linspace (1/2) 1 n ≠ [] := by
    intro hnil
    have := linspace_length (1/2) 1 n
    rw [hnil] at this
    exact h this.symm
  refine List.sum_pos _ ?_ hne
  intro w hw
  have := linspace_half_one_nonneg n w hw
  linarith

lemma wOverSum_bounds (t : ℚ) :
    ∀ (l : List (Option ℚ)) (ws : List ℚ), (∀ w ∈ ws, 0 ≤ w) →
      0 ≤ wOverSum t l ws ∧ wOverSum t l ws ≤ ws.sum := by
  intro l
  induction l with
  | nil =>
    intro ws hws
    constructor
    · cases ws <;> simp [wOverSum]
    · cases ws with
      | nil => simp [wOverSum]
      | cons w ws2 =>
        simp only [wOverSum]
        exact List.sum_nonneg hws
  | cons v vs ih =>
    intro ws hws
    cases ws with
    | nil => simp [wOverSum]
    | cons w ws2 =>
      have hw : 0 ≤ w := hws w (List.mem_cons_self w ws2)
      have hws2 : ∀ x ∈ ws2, 0 ≤ x := fun x hx => hws x (List.mem_cons_of_mem w hx)
      obtain ⟨ih0, ih1⟩ := ih ws2 hws2
      constructor
      · simp only [wOverSum]
        have : 0 ≤ (if overInd t v then w else 0) := by
          split_ifs
          · exact hw
          · exact le_refl 0
        linarith
      · simp only [wOverSum, List.sum_cons]
        have : (if overInd t v then w else 0) ≤ w := by
          split_ifs
          · exact le_refl w
          · exact hw
        linarith

lemma weightedOverRate_mem (t : ℚ) (l : List (Option ℚ)) (h : l.length ≠ 0) :
    ∃ q, weightedOverRate l t = some q ∧ 0 ≤ q ∧ q ≤ 100 := by
  have hpos := linspace_sum_pos l.length h
  have hnn : ∀ w ∈ linspace (1/2) 1 l.length, 0 ≤ w := by
    intro w hw
    have := linspace_half_one_nonneg l.length w hw
    linarith
  obtain ⟨h0, h1⟩ := wOverSum_bounds t l (linspace (1/2) 1 l.length) hnn
  refine ⟨100 * wOverSum t l (linspace (1/2) 1 l.length) / (linspace (1/2) 1 l.length).sum,
    ?_, ?_, ?_⟩
  · simp only [weightedOverRate]
    rw [if_neg (ne_of_gt hpos)]
  · exact div_nonneg (by linarith) (le_of_lt hpos)
  · rw [div_le_iff₀ hpos]
    linarith

lemma monoUpper_prob_bounds (t raw : ℚ) (b : Bucket) (h0 : 0 ≤ raw) (h1 : raw ≤ 100) :
    0 ≤ (monoUpper t raw b).1.probability ∧ (monoUpper t raw b).1.probability ≤ 100 := by
  simp only [monoUpper]
  split
  · rename_i x nt heq
    split_ifs with hlt
    · constructor
      · have hinc : 0 ≤ min (1/2 : ℚ) ((bucketGet b nt - raw) * (1/2)) :=
          le_min (by norm_num) (mul_nonneg (by linarith) (by norm_num))
        exact le_min (by norm_num) (by linarith)
      · exact min_le_left _ _
    · exact ⟨h0, h1⟩
  · exact ⟨h0, h1⟩

lemma mono_bucket_prob_bounds (t raw : ℚ) (b0 : Bucket) (h0 : 0 ≤ raw) (h1 : raw ≤ 100) :
    0 ≤ (enforce_monotonicity_bucket t raw b0).1.probability
      ∧ (enforce_monotonicity_bucket t raw b0).1.probability ≤ 100 := by
  simp only [enforce_monotonicity_bucket]
  split_ifs with hk
  · exact ⟨h0, h1⟩
  · split
    · rename_i x pt heq
      split_ifs with hlt
      · constructor
        · exact le_max_left 0 _
        · have hdec : 0 ≤ min (1/2 : ℚ) ((raw - bucketGet (bucketSet b0 t raw) pt) * (1/2)) :=
            le_min (by norm_num) (mul_nonneg (by linarith) (by norm_num))
          exact max_le (by norm_num) (by linarith)
      · exact monoUpper_prob_bounds t raw _ h0 h1
    · exact monoUpper_prob_bounds t raw _ h0 h1

lemma enforce_monotonicity_fst (t raw : ℚ) (df : List GameRow) (c : Cache) :
    (enforce_monotonicity t raw df c).1
      = (enforce_monotonicity_bucket t raw (cacheGetBucket c (get_player_hash df))).1 := rfl

lemma enforce_monotonicity_snd (t raw : ℚ) (df : List GameRow) (c : Cache) :
    (enforce_monotonicity t raw df c).2
      = cacheSetBucket c (get_player_hash df)
          (enforce_monotonicity_bucket t raw (cacheGetBucket c (get_player_hash df))).2 := rfl

lemma train_ok_bound (sk : SkModel) (dfF : List GameRow) (t p : ℚ)
    (hml : ∀ rows feats tt q, sk.fitAndScore rows feats tt = Except.ok q → 0 ≤ q ∧ q ≤ 1)
    (htr : train_ensemble_model sk dfF t = Except.ok p) : 0 ≤ p ∧ p ≤ 1 := by
  simp only [train_ensemble_model] at htr
  split_ifs at htr
  exact hml _ _ _ _ htr

lemma ensembleConfidence_cases (n : Nat) :
    ensembleConfidence n = "high" ∨ ensembleConfidence n = "medium"
      ∨ ensembleConfidence n = "low" := by
  simp only [ensembleConfidence]
  split_ifs
  · exact Or.inl rfl
  · exact Or.inr (Or.inl rfl)
  · exact Or.inr (Or.inr rfl)

/-- Shape analysis of `final_over_probability` on a nonempty recent
window: the probability is always defined, the confidence label comes
from the fixed four-label set, and — whenever the abstract scoring
layer honours the `predict_proba` range — the probability lies in
[0, 100]. -/
lemma predict_core (sk : SkModel) (df : List GameRow) (t : ℚ) (r : Nat) (em : Bool)
    (st : Cache) (hn : (recentRows df r).length ≠ 0) :
    ∃ q, (final_over_probability sk df t r em st).1.probability = some q
      ∧ ((final_over_probability sk df t r em st).1.confidence = "very_low"
        ∨ (final_over_probability sk df t r em st).1.confidence = "low"
        ∨ (final_over_probability sk df t r em st).1.confidence = "medium"
        ∨ (final_over_probability sk df t r em st).1.confidence = "high")
      ∧ ((∀ rows feats tt p, sk.fitAndScore rows feats tt = Except.ok p → 0 ≤ p ∧ p ≤ 1)
        → 0 ≤ q ∧ q ≤ 100) := by
  have hlen : ((recentRows df r).map (fun g => g.pts)).length ≠ 0 := by
    simpa using hn
  simp only [final_over_probability]
  split_ifs with h5 hq1 hq2 hfeat hem
  · obtain ⟨q, hq, hq0, hq100⟩ := empiricalOverRate_mem t _ hlen
    exact ⟨round2 q, by simp [hq], Or.inl rfl,
      fun _ => ⟨round2_nonneg q hq0, round2_le_hundred q hq100⟩⟩
  · obtain ⟨q, hq, hq0, hq100⟩ := empiricalOverRate_mem t _ hlen
    exact ⟨round2 q, by simp [hq], Or.inr (Or.inl rfl),
      fun _ => ⟨round2_nonneg q hq0, round2_le_hundred q hq100⟩⟩
  · obtain ⟨q, hq, hq0, hq100⟩ := empiricalOverRate_mem t _ hlen
    exact ⟨round2 q, by simp [hq], Or.inr (Or.inl rfl),
      fun _ => ⟨round2_nonneg q hq0, round2_le_hundred q hq100⟩⟩
  · obtain ⟨q, hq, hq0, hq100⟩ := weightedOverRate_mem t _ hlen
    exact ⟨round2 q, by simp [hq], Or.inr (Or.inl rfl),
      fun _ => ⟨round2_nonneg q hq0, round2_le_hundred q hq100⟩⟩
  · split
    · obtain ⟨q, hq, hq0, hq100⟩ := weightedOverRate_mem t _ hlen
      exact ⟨round2 q, by simp [hq], Or.inr (Or.inl rfl),
        fun _ => ⟨round2_nonneg q hq0, round2_le_hundred q hq100⟩⟩
    · rename_i p htr
      refine ⟨round2 (enforce_monotonicity t (p * 100) (recentRows df r) st).1.probability,
        rfl, ?_, ?_⟩
      · rcases ensembleConfidence_cases (recentRows df r).length with h | h | h
        · exact Or.inr (Or.inr (Or.inr h))
        · exact Or.inr (Or.inr (Or.inl h))
        · exact Or.inr (Or.inl h)
      · intro hml
        obtain ⟨hp0, hp1⟩ := train_ok_bound sk _ t p hml htr
        have hr0 : 0 ≤ p * 100 := by linarith
        have hr1 : p * 100 ≤ 100 := by linarith
        rw [enforce_monotonicity_fst]
        obtain ⟨hb0, hb1⟩ := mono_bucket_prob_bounds t (p * 100)
          (cacheGetBucket st (get_player_hash (recentRows df r))) hr0 hr1
        exact ⟨round2_nonneg _ hb0, round2_le_hundred _ hb1⟩
  · split
    · obtain ⟨q, hq, hq0, hq100⟩ := weightedOverRate_mem t _ hlen
      exact ⟨round2 q, by simp [hq], Or.inr (Or.inl rfl),
        fun _ => ⟨round2_nonneg q hq0, round2_le_hundred q hq100⟩⟩
    · rename_i p htr
      refine ⟨round2 (p * 100), rfl, ?_, ?_⟩
      · rcases ensembleConfidence_cases (recentRows df r).length with h | h | h
        · exact Or.inr (Or.inr (Or.inr h))
        · exact Or.inr (Or.inr (Or.inl h))
        · exact Or.inr (Or.inl h)
      · intro hml
        obtain ⟨hp0, hp1⟩ := train_ok_bound sk _ t p hml htr
        exact ⟨round2_nonneg _ (by linarith), round2_le_hundred _ (by linarith)⟩

/-!  C2 — the returned probability lies in [0, 100]. -/

/-- C2: for every nonempty records sequence, threshold, window size,
enforcement flag and ANY prior cache state, the probability field of
the outcome of `final_over_probability` is defined and lies in
[0, 100].  The only assumption on the abstracted sklearn layer is the
`predict_proba` contract: a successful score lies in [0, 1]. -/
theorem C2_probability_in_range (sk : SkModel) (df : List GameRow) (t : ℚ) (r : Nat)
    (em : Bool) (st : Cache) (hn : (recentRows df r).length ≠ 0)
    (hml : ∀ rows feats tt p, sk.fitAndScore rows feats tt = Except.ok p → 0 ≤ p ∧ p ≤ 1) :
    ∃ q, (final_over_probability sk df t r em st).1.probability = some q
      ∧ 0 ≤ q ∧ q ≤ 100 := by
  obtain ⟨q, hq, _, hb⟩ := predict_core sk df t r em st hn
  exact ⟨q, hq, hb hml⟩

/-- Witness for C2: a single-game series in tier 1 with the constant
sklearn stub. -/
theorem C2_witness :
    ∃ q, (final_over_probability skHalf [⟨1, some 10, some 30⟩] 15 35 true
        []).1.probability = some q ∧ 0 ≤ q ∧ q ≤ 100 := by
  refine C2_probability_in_range skHalf [⟨1, some 10, some 30⟩] 15 35 true [] (by decide) ?_
  intro rows feats tt p h
  have hp : (1/2 : ℚ) = p := by
    simpa [skHalf] using h
  rw [← hp]
  norm_num

/-!  C6 — predict never throws and always yields a labelled outcome. -/

/-- C6: for every nonempty records sequence, every threshold and ANY
behaviour of the abstracted training/scoring layer — including one that
fails on every call (the embedded counterpart of feature construction,
training, scoring or calibration raising) — `final_over_probability`
returns a `DecisionOutcome` with a defined probability and a confidence
label from the fixed set; it is a total function, the embedded
counterpart of never throwing: every library failure is degraded to a
fallback tier. -/
theorem C6_never_throws (sk : SkModel) (df : List GameRow) (t : ℚ) (r : Nat)
    (em : Bool) (st : Cache) (hn : (recentRows df r).length ≠ 0) :
    ((final_over_probability sk df t r em st).1.probability).isSome = true
    ∧ ((final_over_probability sk df t r em st).1.confidence = "very_low"
      ∨ (final_over_probability sk df t r em st).1.confidence = "low"
      ∨ (final_over_probability sk df t r em st).1.confidence = "medium"
      ∨ (final_over_probability sk df t r em st).1.confidence = "high") := by
  obtain ⟨q, hq, hc, _⟩ := predict_core sk df t r em st hn
  exact ⟨by simp [hq], hc⟩

/-- Witness for C6, with an sklearn layer that raises on every call:
the outcome still carries a probability and a valid confidence label. -/
theorem C6_witness :
    ((final_over_probability ⟨fun _ _ => [], fun _ _ _ => Except.error "boom"⟩
        dfC1 15 35 true []).1.probability).isSome = true
    ∧ ((final_over_probability ⟨fun _ _ => [], fun _ _ _ => Except.error "boom"⟩
        dfC1 15 35 true []).1.confidence = "very_low"
      ∨ (final_over_probability ⟨fun _ _ => [], fun _ _ _ => Except.error "boom"⟩
        dfC1 15 35 true []).1.confidence = "low"
      ∨ (final_over_probability ⟨fun _ _ => [], fun _ _ _ => Except.error "boom"⟩
        dfC1 15 35 true []).1.confidence = "medium"
      ∨ (final_over_probability ⟨fun _ _ => [], fun _ _ _ => Except.error "boom"⟩
        dfC1 15 35 true []).1.confidence = "high") :=
  C6_never_throws ⟨fun _ _ => [], fun _ _ _ => Except.error "boom"⟩ dfC1 15 35 true []
    (by decide)

/-!  Machinery for the amended C1: two-threshold monotonicity on a
fresh bucket. -/

lemma cacheGetBucket_setBucket (c : Cache) (fp : List (Option ℚ)) (b : Bucket) :
    cacheGetBucket (cacheSetBucket c fp b) fp = b := by
  induction c with
  | nil =>
    simp [cacheSetBucket, cacheGetBucket, List.find?]
  | cons hd tl ih =>
    by_cases hhd : hd.1 = fp
    · have hany : (hd :: tl).any (fun p => decide (p.1 = fp)) = true := by
        simp [List.any_cons, hhd]
      simp only [cacheSetBucket, hany, if_true, List.map_cons, if_pos hhd]
      simp [cacheGetBucket, List.find?]
    · by_cases htl : tl.any (fun p => decide (p.1 = fp)) = true
      · have hany : (hd :: tl).any (fun p => decide (p.1 = fp)) = true := by
          simp [List.any_cons, htl]
        simp only [cacheSetBucket, hany, if_true, List.map_cons, if_neg hhd]
        have ihm : cacheGetBucket (tl.map (fun p => if p.1 = fp then (fp, b) else p)) fp
            = b := by
          have : cacheSetBucket tl fp b
              = tl.map (fun p => if p.1 = fp then (fp, b) else p) := by
            simp [cacheSetBucket, htl]
          rw [← this]
          exact ih
        simp only [cacheGetBucket, List.find?] at ihm ⊢
        rw [decide_eq_false hhd]
        exact ihm
      · have htl2 : tl.any (fun p => decide (p.1 = fp)) = false := by
          revert htl
          cases tl.any (fun p => decide (p.1 = fp)) <;> simp
        have hany : (hd :: tl).any (fun p => decide (p.1 = fp)) = false := by
          simp only [List.any_cons, Bool.or_eq_false_iff]
          exact ⟨decide_eq_false hhd, htl2⟩
        simp only [cacheSetBucket, hany, Bool.false_eq_true, if_false, List.cons_append]
        have ihm : cacheGetBucket (tl ++ [(fp, b)]) fp = b := by
          have : cacheSetBucket tl fp b = tl ++ [(fp, b)] := by
            simp only [cacheSetBucket, htl2, Bool.false_eq_true, if_false]
          rw [← this]
          exact ih
        simp only [cacheGetBucket, List.find?] at ihm ⊢
        rw [decide_eq_false hhd]
        exact ihm

lemma mono_bucket_empty (t raw : ℚ) :
    enforce_monotonicity_bucket t raw []
      = (⟨raw, false, "raw_ml", none, none, none⟩, [(t, raw)]) := by
  simp [enforce_monotonicity_bucket, bucketSet, bucketKeys]

lemma mono_second_higher (t1 t2 r1 r2 : ℚ) (hlt : t1 < t2) (h1 : 0 ≤ r1) :
    (enforce_monotonicity_bucket t2 r2 [(t1, r1)]).1.probability ≤ r1 := by
  have hne : t1 ≠ t2 := ne_of_lt hlt
  have hset : bucketSet [(t1, r1)] t2 r2 = [(t1, r1), (t2, r2)] := by
    simp [bucketSet, hne]
  have hlk : lowerKey [(t1, r1), (t2, r2)] t2 = some t1 := by
    simp [lowerKey, bucketKeys, maxQ, List.filter_cons, hlt, lt_irrefl]
  have hget : bucketGet [(t1, r1), (t2, r2)] t1 = r1 := by
    simp [bucketGet, List.find?]
  have hkeys : ¬ (bucketKeys [(t1, r1), (t2, r2)]).length = 1 := by
    simp [bucketKeys]
  simp only [enforce_monotonicity_bucket, hset, hlk, if_neg hkeys, hget]
  split_ifs with hc
  · have hdec : 0 ≤ min (1/2 : ℚ) ((r2 - r1) * (1/2)) :=
      le_min (by norm_num) (mul_nonneg (by linarith) (by norm_num))
    exact max_le h1 (by linarith)
  · have hup : upperKey [(t1, r1), (t2, r2)] t2 = none := by
      have hasym : ¬ t2 < t1 := lt_asymm hlt
      simp [upperKey, bucketKeys, minQ, List.filter_cons, hasym, lt_irrefl]
    simp only [monoUpper, hup]
    exact le_of_not_lt hc

lemma mono_second_lower (t1 t2 r1 r2 : ℚ) (hlt : t1 < t2) (h2 : r2 ≤ 100) :
    r2 ≤ (enforce_monotonicity_bucket t1 r1 [(t2, r2)]).1.probability := by
  have hne : t2 ≠ t1 := ne_of_gt hlt
  have hset : bucketSet [(t2, r2)] t1 r1 = [(t2, r2), (t1, r1)] := by
    simp [bucketSet, hne]
  have hlk : lowerKey [(t2, r2), (t1, r1)] t1 = none := by
    have hasym : ¬ t2 < t1 := lt_asymm hlt
    simp [lowerKey, bucketKeys, maxQ, List.filter_cons, hasym, lt_irrefl]
  have hkeys : ¬ (bucketKeys [(t2, r2), (t1, r1)]).length = 1 := by
    simp [bucketKeys]
  have hup : upperKey [(t2, r2), (t1, r1)] t1 = some t2 := by
    simp [upperKey, bucketKeys, minQ, List.filter_cons, hlt, lt_irrefl]
  have hget : bucketGet [(t2, r2), (t1, r1)] t2 = r2 := by
    simp [bucketGet, List.find?]
  simp only [enforce_monotonicity_bucket, hset, hlk, if_neg hkeys, monoUpper, hup, hget]
  split_ifs with hc
  · have hinc : 0 ≤ min (1/2 : ℚ) ((r2 - r1) * (1/2)) :=
      le_min (by norm_num) (mul_nonneg (by linarith) (by norm_num))
    exact le_min h2 (by linarith)
  · exact le_of_not_lt hc

lemma roundHalfEvenInt_mono (x y : ℚ) (h : x ≤ y) :
    roundHalfEvenInt x ≤ roundHalfEvenInt y := by
  have hf : Int.floor x ≤ Int.floor y := Int.floor_le_floor h
  rcases eq_or_lt_of_le hf with heq | hlt
  · have hfx : ((Int.floor x : Int) : ℚ) = ((Int.floor y : Int) : ℚ) := by
      exact_mod_cast heq
    have hr : x - (Int.floor x : ℚ) ≤ y - (Int.floor y : ℚ) := by linarith
    simp only [roundHalfEvenInt]
    split_ifs <;> first | omega | (exfalso; linarith)
  · have hx1 := roundHalfEvenInt_le_floor_succ x
    have hy0 := roundHalfEvenInt_ge_floor y
    omega

lemma round2_mono (x y : ℚ) (h : x ≤ y) : round2 x ≤ round2 y := by
  have := roundHalfEvenInt_mono (x * 100) (y * 100) (by linarith)
  have hq : ((roundHalfEvenInt (x * 100) : Int) : ℚ)
      ≤ ((roundHalfEvenInt (y * 100) : Int) : ℚ) := by exact_mod_cast this
  simp only [round2]
  rw [div_le_div_iff₀ (by norm_num : (0 : ℚ) < 100) (by norm_num : (0 : ℚ) < 100)]
  linarith

/-- Unfolding of the ensemble tier with enforcement enabled: under the
tier-selection hypotheses and a successful training/scoring run, the
outcome is the enforced probability with the ensemble metadata. -/
lemma tier4_ok_unfold (sk : SkModel) (df : List GameRow) (t : ℚ) (r : Nat) (st : Cache)
    (p : ℚ)
    (h5 : ¬ (recentRows df r).length < 5)
    (hqh : gtOpt t (quantile ((recentRows df r).map (fun g => g.pts)) (19/20)) = false)
    (hql : ltOpt t (quantile ((recentRows df r).map (fun g => g.pts)) (1/20)) = false)
    (hfeat : ¬ (featRows (recentRows df r)).length < 8)
    (htr : train_ensemble_model sk (featRows (recentRows df r)) t = Except.ok p) :
    final_over_probability sk df t r true st =
      (⟨some (round2 (enforce_monotonicity t (p * 100) (recentRows df r) st).1.probability),
        ensembleConfidence (recentRows df r).length,
        "ensemble_ml (" ++ (enforce_monotonicity t (p * 100) (recentRows df r) st).1.method
          ++ ")",
        (featRows (recentRows df r)).length,
        (enforce_monotonicity t (p * 100) (recentRows df r) st).1.adjusted⟩,
        (enforce_monotonicity t (p * 100) (recentRows df r) st).2) := by
  simp only [final_over_probability]
  rw [if_neg h5, hqh, hql]
  simp only [Bool.false_eq_true, if_false]
  rw [if_neg hfeat, htr]
  simp

/-- C1 amended: for a fixed entity fingerprint whose cache bucket holds
NO other thresholds, evaluating t1 < t2 in either order — both calls
reaching the ensemble tier with enforcement enabled and the scorer
honouring the predict_proba range — yields a returned probability for
t1 that is at least the returned probability for t2
(post-enforcement).  With further thresholds already in the bucket the
invariant fails, as the counterexample shows. -/
theorem C1_amended (sk : SkModel) (df : List GameRow) (t1 t2 : ℚ) (r : Nat) (st : Cache)
    (p1 p2 : ℚ) (hlt : t1 < t2)
    (hb : cacheGetBucket st (get_player_hash (recentRows df r)) = [])
    (h5 : ¬ (recentRows df r).length < 5)
    (hq1h : gtOpt t1 (quantile ((recentRows df r).map (fun g => g.pts)) (19/20)) = false)
    (hq1l : ltOpt t1 (quantile ((recentRows df r).map (fun g => g.pts)) (1/20)) = false)
    (hq2h : gtOpt t2 (quantile ((recentRows df r).map (fun g => g.pts)) (19/20)) = false)
    (hq2l : ltOpt t2 (quantile ((recentRows df r).map (fun g => g.pts)) (1/20)) = false)
    (hfeat : ¬ (featRows (recentRows df r)).length < 8)
    (htr1 : train_ensemble_model sk (featRows (recentRows df r)) t1 = Except.ok p1)
    (htr2 : train_ensemble_model sk (featRows (recentRows df r)) t2 = Except.ok p2)
    (hp1 : 0 ≤ p1) (hp2 : p2 ≤ 1) :
    (∃ q1 q2,
      (final_over_probability sk df t1 r true st).1.probability = some q1
      ∧ (final_over_probability sk df t2 r true
          (final_over_probability sk df t1 r true st).2).1.probability = some q2
      ∧ q2 ≤ q1)
    ∧ (∃ q1 q2,
      (final_over_probability sk df t2 r true st).1.probability = some q2
      ∧ (final_over_probability sk df t1 r true
          (final_over_probability sk df t2 r true st).2).1.probability = some q1
      ∧ q2 ≤ q1) := by
  constructor
  · have hc1 := tier4_ok_unfold sk df t1 r st p1 h5 hq1h hq1l hfeat htr1
    have he1p : (enforce_monotonicity t1 (p1 * 100) (recentRows df r) st).1.probability
        = p1 * 100 := by
      rw [enforce_monotonicity_fst, hb, mono_bucket_empty]
    have he1s : (enforce_monotonicity t1 (p1 * 100) (recentRows df r) st).2
        = cacheSetBucket st (get_player_hash (recentRows df r)) [(t1, p1 * 100)] := by
      rw [enforce_monotonicity_snd, hb, mono_bucket_empty]
    have harg : (final_over_probability sk df t1 r true st).2
        = cacheSetBucket st (get_player_hash (recentRows df r)) [(t1, p1 * 100)] := by
      rw [hc1, he1s]
    have hc2 := tier4_ok_unfold sk df t2 r
      (cacheSetBucket st (get_player_hash (recentRows df r)) [(t1, p1 * 100)]) p2
      h5 hq2h hq2l hfeat htr2
    have he2p : (enforce_monotonicity t2 (p2 * 100) (recentRows df r)
          (cacheSetBucket st (get_player_hash (recentRows df r))
            [(t1, p1 * 100)])).1.probability
        = (enforce_monotonicity_bucket t2 (p2 * 100) [(t1, p1 * 100)]).1.probability := by
      rw [enforce_monotonicity_fst, cacheGetBucket_setBucket]
    refine ⟨round2 (p1 * 100),
      round2 ((enforce_monotonicity_bucket t2 (p2 * 100) [(t1, p1 * 100)]).1.probability),
      ?_, ?_, ?_⟩
    · rw [hc1, he1p]
    · rw [harg, hc2, he2p]
    · exact round2_mono _ _
        (mono_second_higher t1 t2 (p1 * 100) (p2 * 100) hlt (by linarith))
  · have hc1 := tier4_ok_unfold sk df t2 r st p2 h5 hq2h hq2l hfeat htr2
    have he1p : (enforce_monotonicity t2 (p2 * 100) (recentRows df r) st).1.probability
        = p2 * 100 := by
      rw [enforce_monotonicity_fst, hb, mono_bucket_empty]
    have he1s : (enforce_monotonicity t2 (p2 * 100) (recentRows df r) st).2
        = cacheSetBucket st (get_player_hash (recentRows df r)) [(t2, p2 * 100)] := by
      rw [enforce_monotonicity_snd, hb, mono_bucket_empty]
    have harg : (final_over_probability sk df t2 r true st).2
        = cacheSetBucket st (get_player_hash (recentRows df r)) [(t2, p2 * 100)] := by
      rw [hc1, he1s]
    have hc2 := tier4_ok_unfold sk df t1 r
      (cacheSetBucket st (get_player_hash (recentRows df r)) [(t2, p2 * 100)]) p1
      h5 hq1h hq1l hfeat htr1
    have he2p : (enforce_monotonicity t1 (p1 * 100) (recentRows df r)
          (cacheSetBucket st (get_player_hash (recentRows df r))
            [(t2, p2 * 100)])).1.probability
        = (enforce_monotonicity_bucket t1 (p1 * 100) [(t2, p2 * 100)]).1.probability := by
      rw [enforce_monotonicity_fst, cacheGetBucket_setBucket]
    refine ⟨round2 ((enforce_monotonicity_bucket t1 (p1 * 100) [(t2, p2 * 100)]).1.probability),
      round2 (p2 * 100), ?_, ?_, ?_⟩
    · rw [hc1, he1p]
    · rw [harg, hc2, he2p]
    · exact round2_mono _ _
        (mono_second_lower t1 t2 (p1 * 100) (p2 * 100) hlt (by linarith))

set_option maxHeartbeats 2000000 in
/-- Witness for the amended C1 at the concrete 12-game series and
sklearn stub of the counterexample, but starting from an EMPTY cache
and evaluating only the two thresholds 10 < 20 (in both orders). -/
theorem C1_amended_witness :
    (∃ q1 q2,
      (final_over_probability skC1 dfC1 10 35 true []).1.probability = some q1
      ∧ (final_over_probability skC1 dfC1 20 35 true
          (final_over_probability skC1 dfC1 10 35 true []).2).1.probability = some q2
      ∧ q2 ≤ q1)
    ∧ (∃ q1 q2,
      (final_over_probability skC1 dfC1 20 35 true []).1.probability = some q2
      ∧ (final_over_probability skC1 dfC1 10 35 true
          (final_over_probability skC1 dfC1 20 35 true []).2).1.probability = some q1
      ∧ q2 ≤ q1) := by
  refine C1_amended skC1 dfC1 10 20 35 [] (1/2) (49/100) (by norm_num) rfl (by decide)
    ?_ ?_ ?_ ?_ (by decide) ?_ ?_ (by norm_num) (by norm_num)
  · norm_num [quantile, recentRows, dfC1, sortAsc, insertSorted, List.filterMap_cons,
      Int.fract, List.getD, gtOpt]
    all_goals norm_num [show Int.toNat 10 = 10 from rfl]
  · norm_num [quantile, recentRows, dfC1, sortAsc, insertSorted, List.filterMap_cons,
      Int.fract, List.getD, ltOpt]
  · norm_num [quantile, recentRows, dfC1, sortAsc, insertSorted, List.filterMap_cons,
      Int.fract, List.getD, gtOpt]
    all_goals norm_num [show Int.toNat 10 = 10 from rfl]
  · norm_num [quantile, recentRows, dfC1, sortAsc, insertSorted, List.filterMap_cons,
      Int.fract, List.getD, ltOpt]
  · norm_num [train_ensemble_model, skC1, hasBothClasses, featRows, recentRows, dfC1,
      overInd, wShort, wMedium, rollingDefined, presentInWindow, List.enum,
      List.enumFrom, List.filterMap_cons]
  · norm_num [train_ensemble_model, skC1, hasBothClasses, featRows, recentRows, dfC1,
      overInd, wShort, wMedium, rollingDefined, presentInWindow, List.enum,
      List.enumFrom, List.filterMap_cons]

end NBA
